import Mathlib

/-!
# A verification model of the PDF compression backend (`app.py`)

This file is a shallow embedding, in Lean 4, of the size-targeting
compression controller implemented by the Flask endpoint
`compress_endpoint` in `app.py`, together with proofs of the behavioural
claims made by the specification.

Modelling conventions:

* Python floats that arise here (`low`, `high`, `mid`, `target_size_mb`,
  `mb`) are modelled as rationals (`ℚ`).  Every value these variables take
  in the program is a dyadic rational with a tiny denominator (the loop
  performs at most 8 halvings of integer endpoints), so rational
  arithmetic is exact for them.
* The external Ghostscript binary is a black box.  For one fixed uploaded
  file and preset it is modelled as an oracle
  `gs : ℤ → Option (List ℕ)` mapping the (truncated, per Python `int()`)
  resolution to either `some bytes` (the produced output file's bytes) or
  `none` (the invocation raised / produced no usable output).
* Filesystem paths are abstracted away: a candidate is identified by the
  bytes the oracle returns for its resolution.
* `request.form` fields are modelled by `Option String`-like data; for
  `targetSizeMB` we distinguish the four cases the Python code
  distinguishes (absent, present-but-empty, parses as a float, fails to
  parse).
-/

namespace PdfApp

/-! ## Configuration constants (`app.py` lines 22–27) -/

/-- `MAX_UPLOAD_MB = 200` -/
def MAX_UPLOAD_MB : ℚ := 200

/-- `MAX_ITERATIONS = 8` — binary search iterations. -/
def MAX_ITERATIONS : ℕ := 8

/-- `MIN_DPI = 72` — don't go below this dpi. -/
def MIN_DPI : ℚ := 72

/-! ## Small Python helpers -/

/-- Python `int()` applied to a (finite) numeric value: truncation toward
zero.  For a rational `q = num / den` (with `den > 0`) this is
`num tdiv den`. -/
def pyInt (q : ℚ) : ℤ := q.num.tdiv q.den

/-- Python `str.lower()` (ASCII behaviour, which is all the endpoint
relies on). -/
def pyLower (s : String) : String := ⟨s.data.map Char.toLower⟩

/-- `allowed_file` (`app.py` lines 43–44):
`'.' in filename and filename.rsplit('.', 1)[1].lower() in {'pdf'}`.
The characters after the last dot are the extension. -/
def allowed_file (filename : String) : Bool :=
  filename.data.contains '.' &&
    ((filename.data.reverse.takeWhile (fun c => c ≠ '.')).reverse.map
        Char.toLower == [ 'p', 'd', 'f' ])

/-! ## Request data -/

/-- The `targetSizeMB` form field as the Python code discriminates it:
absent (`form.get` returns `None`), present but the empty string
(falsy, so treated like absent), a non-empty string that `float()`
parses to the value `q`, or a non-empty string on which `float()`
raises. -/
inductive TargetField
  | absent
  | emptyStr
  | numeric (q : ℚ)
  | malformed
deriving DecidableEq

/-- `float(target_size_mb) if target_size_mb else None`, wrapped in the
`try/except`: `none` means the exception path (→ 400), `some t` the
parsed optional target. -/
def parseTarget : TargetField → Option (Option ℚ)
  | .absent => some none
  | .emptyStr => some none
  | .numeric q => some (some q)
  | .malformed => none

/-- One incoming request, as far as the endpoint inspects it: whether a
`file` part exists, its filename, the uploaded content's size in bytes,
the `quality` form field (absent ⇒ default) and the `targetSizeMB` form
field. -/
structure Request where
  hasFilePart : Bool
  filename : String
  origBytes : ℕ
  quality : Option String
  targetSizeMB : TargetField
deriving DecidableEq

/-- The default for the `quality` form field (`form.get('quality', 'high')`). -/
def defaultQuality : String := "high"

/-- Lines 106–108: read `quality`, lowercase it, and fall back to
`'high'` when it is not one of the three known tiers. -/
def resolveQuality (q : Option String) : String :=
  let quality := pyLower (q.getD defaultQuality)
  if quality = "high" ∨ quality = "medium" ∨ quality = "low" then quality
  else "high"

/-- A quality tier's starting DPI and Ghostscript `-dPDFSETTINGS` preset. -/
structure QualityPreset where
  dpi : ℚ
  pdfsettings : String
deriving DecidableEq

/-- The `quality_map` dict (lines 118–122). -/
def quality_map (q : String) : QualityPreset :=
  if q = "high" then ⟨300, "/prepress"⟩
  else if q = "medium" then ⟨200, "/printer"⟩
  else ⟨150, "/ebook"⟩

/-! ## Responses -/

/-- A value carried in a response header.  `str(int)` values are `.nat`,
the `:.4f`-formatted compression ratio is kept symbolically as
`.frac compressed original`, quality tiers are `.str`, and `str(float)`
values are `.rat`. -/
inductive HVal
  | nat (n : ℕ)
  | frac (num den : ℕ)
  | str (s : String)
  | rat (q : ℚ)
deriving DecidableEq

/-- What the endpoint returns: a JSON error with an HTTP status, or a
file download with its header metadata. -/
inductive Response
  | err (status : ℕ) (msg : String)
  | file (bytes : List ℕ) (headers : List (String × HVal))
deriving DecidableEq

/-- The observable outcome of one request: the HTTP response, the trace
of external-tool invocations (each recorded as the `dpi` argument passed
to `compress_with_gs` together with the preset), the resolution whose
output was ultimately returned (ghost data: `start_dpi` on the
single-pass path, `best_dpi` on the search path), and whether a
temporary directory was created. -/
structure Outcome where
  response : Response
  trace : List (ℚ × String)
  resolutionUsed : Option ℚ
  tempCreated : Bool
deriving DecidableEq

/-- HTTP status of a response (`none` for a successful file download). -/
def statusOf : Response → Option ℕ
  | .err s _ => some s
  | .file _ _ => none

/-- The headers of a file response (`[]` for an error). -/
def headersOf : Response → List (String × HVal)
  | .err _ _ => []
  | .file _ h => h

/-! ## The bisection search state (`app.py` lines 169–218) -/

/-- The best-candidate record.  In the Python code this is the triple of
variables `best_candidate` (output path), `best_size_diff` and
`best_dpi`, which are always written together (lines 200–203); here a
candidate is identified by its output bytes.  `diff = |size − target|`
mirrors `best_size_diff`. -/
structure BestRec where
  bytes : List ℕ
  diff : ℕ
  dpi : ℤ
deriving DecidableEq

/-- The mutable search state: the bracket `low`/`high` and the best
record.  `best = none` corresponds to `best_candidate is None` /
`best_size_diff = float('inf')`. -/
structure SearchState where
  low : ℚ
  high : ℚ
  best : Option BestRec
deriving DecidableEq

/-- Line 200: `abs(diff) < best_size_diff`.  With `best = none` the
stored distance is `inf`, so any finite distance improves. -/
def improves (s : SearchState) (d : ℕ) : Bool :=
  match s.best with
  | none => true
  | some b => d < b.diff

/-- The best distance seen so far, as an extended natural
(`⊤` = `float('inf')`). -/
def bestDist (s : SearchState) : WithTop ℕ :=
  match s.best with
  | none => ⊤
  | some b => (b.diff : WithTop ℕ)

/-- Whether one loop iteration fell through to the next iteration
(`next`) or left the loop by `break` (`halt`); either way it carries the
state after the iteration. -/
inductive StepOut
  | halt (s : SearchState)
  | next (s : SearchState)
deriving DecidableEq

/-- The state carried by a `StepOut`. -/
def StepOut.state : StepOut → SearchState
  | .halt s => s
  | .next s => s

/-- Whether one loop iteration left the loop by `break`. -/
def StepOut.isHalt : StepOut → Bool
  | .halt _ => true
  | .next _ => false

/-- One iteration of the loop body (lines 186–218), with the `break`s
made explicit.  Returns the iteration's outcome together with the `dpi`
value passed to the tool (`mid = (low + high) / 2.0`).  A failed
invocation (lines 190–194, `except: break`) leaves the state
untouched. -/
def searchStep (gs : ℤ → Option (List ℕ)) (targetBytes : ℤ)
    (s : SearchState) : StepOut × ℚ :=
  let mid := (s.low + s.high) / 2
  match gs (pyInt mid) with
  | none => (.halt s, mid)
  | some bytes =>
    let d : ℕ := ((bytes.length : ℤ) - targetBytes).natAbs
    let s1 := if improves s d
              then { s with best := some ⟨bytes, d, pyInt mid⟩ }
              else s
    if d ≤ 10 * 1024 then (.halt s1, mid)
    else
      let s2 := if targetBytes < (bytes.length : ℤ)
                then { s1 with high := mid }
                else { s1 with low := mid }
      if s2.high - s2.low < 1 then (.halt s2, mid)
      else (.next s2, mid)

/-- The loop of lines 185–218, driven by a fuel counter standing for
`range(MAX_ITERATIONS)`.  Returns the final state together with the
trace of `dpi` values passed to the tool, in order.  A failed invocation
still appears in the trace. -/
def searchLoop (gs : ℤ → Option (List ℕ)) (targetBytes : ℤ) :
    ℕ → SearchState → SearchState × List ℚ
  | 0, s => (s, [])
  | fuel + 1, s =>
    match searchStep gs targetBytes s with
    | (.halt s1, mid) => (s1, [mid])
    | (.next s1, mid) =>
      let r := searchLoop gs targetBytes fuel s1
      (r.1, mid :: r.2)

/-! ## Building the response -/

/-- The four headers common to both success paths
(lines 150–155 and 236–240). -/
def baseHeaders (origBytes : ℕ) (bytes : List ℕ) (quality : String) :
    List (String × HVal) :=
  [("X-Original-Size", .nat origBytes),
   ("X-Compressed-Size", .nat bytes.length),
   ("X-Compression-Ratio", .frac bytes.length origBytes),
   ("X-Quality-Used", .str quality)]

/-- Single-pass headers: `X-Target-Size` is added only under
`if target_size_mb:` (line 156), i.e. only when the parsed target is a
non-`None`, non-zero float. -/
def singlePassHeaders (origBytes : ℕ) (bytes : List ℕ) (quality : String)
    (target : Option ℚ) : List (String × HVal) :=
  baseHeaders origBytes bytes quality ++
    (match target with
     | some t => if t = 0 then [] else [("X-Target-Size", .rat t)]
     | none => [])

/-- Search-path headers: `X-Target-Size` is unconditional (line 241). -/
def searchHeaders (origBytes : ℕ) (bytes : List ℕ) (quality : String)
    (t : ℚ) : List (String × HVal) :=
  baseHeaders origBytes bytes quality ++ [("X-Target-Size", .rat t)]

/-- The single-pass path (lines 131–165): one invocation at the tier's
starting DPI; a tool failure surfaces as a 500.  (The code distinguishes
`CalledProcessError` from other exceptions only in the error message;
both are 500s and the model keeps one message.) -/
def singlePass (gs : ℤ → Option (List ℕ)) (origBytes : ℕ)
    (quality : String) (p : QualityPreset) (target : Option ℚ) : Outcome :=
  match gs (pyInt p.dpi) with
  | none =>
      ⟨.err 500 "Ghostscript failed", [(p.dpi, p.pdfsettings)], none, true⟩
  | some bytes =>
      ⟨.file bytes (singlePassHeaders origBytes bytes quality target),
       [(p.dpi, p.pdfsettings)], some p.dpi, true⟩

/-- `target_bytes = int(target_size_mb * 1024 * 1024)` (line 183). -/
def targetBytesOf (t : ℚ) : ℤ := pyInt (t * (1024 * 1024))

/-- `low = MIN_DPI; high = start_dpi; best_candidate = None` (lines
169–173). -/
def initState (p : QualityPreset) : SearchState := ⟨MIN_DPI, p.dpi, none⟩

/-- The search path (lines 167–251): bisection between `MIN_DPI` and the
tier's starting DPI, then the fallback pass at `MIN_DPI` when no
candidate was ever produced, then the response from the best
candidate. -/
def searchRun (gs : ℤ → Option (List ℕ)) (origBytes : ℕ)
    (quality : String) (p : QualityPreset) (t : ℚ) : Outcome :=
  let r := searchLoop gs (targetBytesOf t) MAX_ITERATIONS (initState p)
  let tr := r.2.map (fun m => (m, p.pdfsettings))
  match r.1.best with
  | some b =>
      ⟨.file b.bytes (searchHeaders origBytes b.bytes quality t),
       tr, some (b.dpi : ℚ), true⟩
  | none =>
      match gs (pyInt MIN_DPI) with
      | none =>
          ⟨.err 500 "Compression failed",
           tr ++ [(MIN_DPI, p.pdfsettings)], none, true⟩
      | some bytes =>
          ⟨.file bytes (searchHeaders origBytes bytes quality t),
           tr ++ [(MIN_DPI, p.pdfsettings)], some MIN_DPI, true⟩

/-- The whole endpoint `compress_endpoint` (lines 86–251), parameterized
by whether Ghostscript was found at startup (`GS_BIN is None`) and by
the tool oracle. -/
def run (gsAvailable : Bool) (gs : ℤ → Option (List ℕ)) (req : Request) :
    Outcome :=
  if gsAvailable = false then
    ⟨.err 500 "Ghostscript not available on server", [], none, false⟩
  else if req.hasFilePart = false then
    ⟨.err 400 "No file part", [], none, false⟩
  else if req.filename = "" then
    ⟨.err 400 "No selected file", [], none, false⟩
  else if allowed_file req.filename = false then
    ⟨.err 400 "Invalid file type; PDF required", [], none, false⟩
  else
    let mb : ℚ := (req.origBytes : ℚ) / (1024 * 1024)
    if MAX_UPLOAD_MB < mb then
      ⟨.err 400 "File too large. Max allowed 200 MB", [], none, false⟩
    else
      match parseTarget req.targetSizeMB with
      | none => ⟨.err 400 "Invalid targetSizeMB", [], none, false⟩
      | some targetOpt =>
        let quality := resolveQuality req.quality
        let p := quality_map quality
        match targetOpt with
        | none => singlePass gs req.origBytes quality p none
        | some t =>
          if mb ≤ t then singlePass gs req.origBytes quality p (some t)
          else searchRun gs req.origBytes quality p t

/-! ## Helper lemmas about the search loop -/

theorem improves_iff (s : SearchState) (d : ℕ) :
    improves s d = true ↔ (d : WithTop ℕ) < bestDist s := by
  cases hb : s.best with
  | none => simp [improves, bestDist, hb, WithTop.coe_lt_top]
  | some b => simp [improves, bestDist, hb, Nat.cast_lt]

theorem bestDist_le_of_not_improves (s : SearchState) (d : ℕ)
    (h : ¬ improves s d = true) : bestDist s ≤ (d : WithTop ℕ) := by
  rw [improves_iff] at h
  exact le_of_not_lt h

/-- `bestDist` only looks at the `best` field. -/
theorem bestDist_congr {s t : SearchState} (h : s.best = t.best) :
    bestDist s = bestDist t := by
  unfold bestDist
  rw [h]

/-- The `dpi` argument an iteration passes to the tool is the midpoint
of the current bracket. -/
theorem searchStep_mid (gs : ℤ → Option (List ℕ)) (tB : ℤ)
    (s : SearchState) : (searchStep gs tB s).2 = (s.low + s.high) / 2 := by
  unfold searchStep
  rcases hgs : gs (pyInt ((s.low + s.high) / 2)) with _ | bytes
  · simp only [hgs]
  · simp only [hgs]
    split_ifs <;> rfl

/-- What the iteration does to the `best` field: nothing on a failed
invocation or a non-improving candidate, otherwise it records the
produced candidate with its true distance and truncated midpoint. -/
theorem searchStep_state_best (gs : ℤ → Option (List ℕ)) (tB : ℤ)
    (s : SearchState) :
    (searchStep gs tB s).1.state.best =
      (match gs (pyInt ((s.low + s.high) / 2)) with
       | none => s.best
       | some bytes =>
         if improves s ((bytes.length : ℤ) - tB).natAbs
         then some ⟨bytes, ((bytes.length : ℤ) - tB).natAbs,
           pyInt ((s.low + s.high) / 2)⟩
         else s.best) := by
  unfold searchStep
  rcases hgs : gs (pyInt ((s.low + s.high) / 2)) with _ | bytes
  · simp only [hgs]
    rfl
  · simp only [hgs]
    by_cases himp : improves s ((bytes.length : ℤ) - tB).natAbs = true
    · rw [if_pos himp, if_pos himp]
      split_ifs <;> rfl
    · rw [if_neg himp, if_neg himp]
      split_ifs <;> rfl

/-- What the iteration does to the bracket: it leaves it unchanged, or
moves `high` down to the midpoint, or moves `low` up to the midpoint. -/
theorem searchStep_state_bounds (gs : ℤ → Option (List ℕ)) (tB : ℤ)
    (s : SearchState) :
    ((searchStep gs tB s).1.state.low = s.low ∧
        (searchStep gs tB s).1.state.high = s.high) ∨
    ((searchStep gs tB s).1.state.low = s.low ∧
        (searchStep gs tB s).1.state.high = (s.low + s.high) / 2) ∨
    ((searchStep gs tB s).1.state.low = (s.low + s.high) / 2 ∧
        (searchStep gs tB s).1.state.high = s.high) := by
  unfold searchStep
  rcases hgs : gs (pyInt ((s.low + s.high) / 2)) with _ | bytes
  · left
    simp only [hgs]
    exact ⟨rfl, rfl⟩
  · simp only [hgs]
    by_cases himp : improves s ((bytes.length : ℤ) - tB).natAbs = true
    · rw [if_pos himp]
      split_ifs
      · left; exact ⟨rfl, rfl⟩
      · right; left; exact ⟨rfl, rfl⟩
      · right; left; exact ⟨rfl, rfl⟩
      · right; right; exact ⟨rfl, rfl⟩
      · right; right; exact ⟨rfl, rfl⟩
    · rw [if_neg himp]
      split_ifs
      · left; exact ⟨rfl, rfl⟩
      · right; left; exact ⟨rfl, rfl⟩
      · right; left; exact ⟨rfl, rfl⟩
      · right; right; exact ⟨rfl, rfl⟩
      · right; right; exact ⟨rfl, rfl⟩

/-- A failed invocation halts the loop with the state unchanged. -/
theorem searchStep_fail (gs : ℤ → Option (List ℕ)) (tB : ℤ)
    (s : SearchState)
    (hgs : gs (pyInt ((s.low + s.high) / 2)) = none) :
    searchStep gs tB s = (.halt s, (s.low + s.high) / 2) := by
  unfold searchStep
  simp only [hgs]

/-- One iteration never increases the best distance. -/
theorem searchStep_bestDist_mono (gs : ℤ → Option (List ℕ)) (tB : ℤ)
    (s : SearchState) :
    bestDist (searchStep gs tB s).1.state ≤ bestDist s := by
  have hb := searchStep_state_best gs tB s
  rcases hgs : gs (pyInt ((s.low + s.high) / 2)) with _ | bytes <;>
    rw [hgs] at hb
  · exact le_of_eq (bestDist_congr hb)
  · simp only [] at hb
    by_cases himp : improves s ((bytes.length : ℤ) - tB).natAbs = true
    · rw [if_pos himp] at hb
      have : bestDist (searchStep gs tB s).1.state =
          ((((bytes.length : ℤ) - tB).natAbs : ℕ) : WithTop ℕ) := by
        unfold bestDist
        rw [hb]
      rw [this]
      exact le_of_lt ((improves_iff s _).mp himp)
    · rw [if_neg himp] at hb
      exact le_of_eq (bestDist_congr hb)

/-- After an iteration whose invocation succeeded, the best distance is
at most the produced candidate's distance to target. -/
theorem searchStep_bestDist_le (gs : ℤ → Option (List ℕ)) (tB : ℤ)
    (s : SearchState) (bytes : List ℕ)
    (hgs : gs (pyInt ((s.low + s.high) / 2)) = some bytes) :
    bestDist (searchStep gs tB s).1.state ≤
      ((((bytes.length : ℤ) - tB).natAbs : ℕ) : WithTop ℕ) := by
  have hb := searchStep_state_best gs tB s
  rw [hgs] at hb
  simp only [] at hb
  by_cases himp : improves s ((bytes.length : ℤ) - tB).natAbs = true
  · rw [if_pos himp] at hb
    have : bestDist (searchStep gs tB s).1.state =
        ((((bytes.length : ℤ) - tB).natAbs : ℕ) : WithTop ℕ) := by
      unfold bestDist
      rw [hb]
    rw [this]
  · rw [if_neg himp] at hb
    rw [bestDist_congr hb]
    exact bestDist_le_of_not_improves _ _ himp

/-- The `best` field after an iteration either is the old one or records
a candidate actually produced at this iteration's midpoint. -/
theorem searchStep_best_src (gs : ℤ → Option (List ℕ)) (tB : ℤ)
    (s : SearchState) :
    (searchStep gs tB s).1.state.best = s.best ∨
      ∃ bytes, gs (pyInt ((s.low + s.high) / 2)) = some bytes ∧
        (searchStep gs tB s).1.state.best =
          some ⟨bytes, ((bytes.length : ℤ) - tB).natAbs,
            pyInt ((s.low + s.high) / 2)⟩ := by
  have hb := searchStep_state_best gs tB s
  rcases hgs : gs (pyInt ((s.low + s.high) / 2)) with _ | bytes <;>
    rw [hgs] at hb
  · left; exact hb
  · simp only [] at hb
    by_cases himp : improves s ((bytes.length : ℤ) - tB).natAbs = true
    · rw [if_pos himp] at hb
      right
      exact ⟨bytes, rfl, hb⟩
    · rw [if_neg himp] at hb
      left; exact hb

/-- The best distance never increases across the whole loop. -/
theorem searchLoop_bestDist_mono (gs : ℤ → Option (List ℕ)) (tB : ℤ)
    (fuel : ℕ) (s : SearchState) :
    bestDist (searchLoop gs tB fuel s).1 ≤ bestDist s := by
  induction fuel generalizing s with
  | zero => simp [searchLoop]
  | succ n ih =>
    simp only [searchLoop]
    rcases hs : searchStep gs tB s with ⟨o, mid⟩
    have hmono := searchStep_bestDist_mono gs tB s
    rw [hs] at hmono
    cases o with
    | halt s1 => exact hmono
    | next s1 => exact le_trans (ih s1) hmono

/-- After the loop, the best distance is at most the distance of every
candidate the tool successfully produced during the loop. -/
theorem searchLoop_bestDist_le_produced (gs : ℤ → Option (List ℕ)) (tB : ℤ)
    (fuel : ℕ) (s : SearchState) (m : ℚ)
    (hm : m ∈ (searchLoop gs tB fuel s).2) (bytes : List ℕ)
    (hgs : gs (pyInt m) = some bytes) :
    bestDist (searchLoop gs tB fuel s).1 ≤
      ((((bytes.length : ℤ) - tB).natAbs : ℕ) : WithTop ℕ) := by
  induction fuel generalizing s with
  | zero => simp [searchLoop] at hm
  | succ n ih =>
    simp only [searchLoop] at hm ⊢
    rcases hs : searchStep gs tB s with ⟨o, mid⟩
    have hmid : mid = (s.low + s.high) / 2 := by
      have h := searchStep_mid gs tB s
      rw [hs] at h
      exact h
    rw [hs] at hm
    cases o with
    | halt s1 =>
      simp only [List.mem_singleton] at hm
      subst hm
      rw [hmid] at hgs
      have h := searchStep_bestDist_le gs tB s bytes hgs
      rw [hs] at h
      exact h
    | next s1 =>
      simp only [List.mem_cons] at hm
      rcases hm with hm | hm
      · subst hm
        rw [hmid] at hgs
        have hle := searchStep_bestDist_le gs tB s bytes hgs
        rw [hs] at hle
        exact le_trans (searchLoop_bestDist_mono gs tB n s1) hle
      · exact ih s1 hm

/-- The loop performs at most `fuel` invocations. -/
theorem searchLoop_trace_length (gs : ℤ → Option (List ℕ)) (tB : ℤ)
    (fuel : ℕ) (s : SearchState) :
    (searchLoop gs tB fuel s).2.length ≤ fuel := by
  induction fuel generalizing s with
  | zero => simp [searchLoop]
  | succ n ih =>
    simp only [searchLoop]
    rcases hs : searchStep gs tB s with ⟨o, mid⟩
    cases o with
    | halt s1 => simp
    | next s1 =>
      simp only [List.length_cons]
      exact Nat.succ_le_succ (ih s1)

/-- If every invocation recorded in the trace failed, the loop did not
change the state (the first invocation already failed). -/
theorem searchLoop_state_of_allFail (gs : ℤ → Option (List ℕ)) (tB : ℤ)
    (fuel : ℕ) (s : SearchState)
    (h : ∀ m ∈ (searchLoop gs tB fuel s).2, gs (pyInt m) = none) :
    (searchLoop gs tB fuel s).1 = s := by
  cases fuel with
  | zero => simp [searchLoop]
  | succ n =>
    simp only [searchLoop] at h ⊢
    rcases hs : searchStep gs tB s with ⟨o, mid⟩
    have hmid : mid = (s.low + s.high) / 2 := by
      have hm := searchStep_mid gs tB s
      rw [hs] at hm
      exact hm
    rw [hs] at h
    have hfail : gs (pyInt mid) = none := by
      cases o with
      | halt s1 => exact h _ (List.mem_singleton_self _)
      | next s1 => exact h _ (List.mem_cons_self _ _)
    rw [hmid] at hfail
    have hstep := searchStep_fail gs tB s hfail
    rw [hs] at hstep
    cases o with
    | halt s1 =>
      have hinj := (Prod.mk.injEq _ _ _ _).mp hstep
      exact (StepOut.halt.injEq _ _).mp hinj.1
    | next s1 =>
      exact StepOut.noConfusion ((Prod.mk.injEq _ _ _ _).mp hstep).1

/-- The final `best` record either is the initial one or describes a
candidate the tool actually produced at some traced midpoint, recorded
with its true distance to target. -/
theorem searchLoop_best_src (gs : ℤ → Option (List ℕ)) (tB : ℤ)
    (fuel : ℕ) (s : SearchState) :
    (searchLoop gs tB fuel s).1.best = s.best ∨
      ∃ m ∈ (searchLoop gs tB fuel s).2, ∃ bytes,
        gs (pyInt m) = some bytes ∧
          (searchLoop gs tB fuel s).1.best =
            some ⟨bytes, ((bytes.length : ℤ) - tB).natAbs, pyInt m⟩ := by
  induction fuel generalizing s with
  | zero => left; simp [searchLoop]
  | succ n ih =>
    simp only [searchLoop]
    rcases hs : searchStep gs tB s with ⟨o, mid⟩
    have hmid : mid = (s.low + s.high) / 2 := by
      have hm := searchStep_mid gs tB s
      rw [hs] at hm
      exact hm
    have hsrc := searchStep_best_src gs tB s
    rw [hs] at hsrc
    cases o with
    | halt s1 =>
      simp only [StepOut.state] at hsrc
      rcases hsrc with hsrc | ⟨bytes, hb1, hb2⟩
      · left; exact hsrc
      · right
        exact ⟨mid, List.mem_singleton_self _, bytes, hmid ▸ hb1, hmid ▸ hb2⟩
    | next s1 =>
      simp only [StepOut.state] at hsrc
      rcases ih s1 with hih | ⟨m, hm, bytes, hb1, hb2⟩
      · rcases hsrc with hsrc | ⟨bytes, hb1, hb2⟩
        · left; rw [hih, hsrc]
        · right
          refine ⟨mid, List.mem_cons_self _ _, bytes, hmid ▸ hb1, ?_⟩
          rw [hih, hb2, hmid]
      · right
        exact ⟨m, List.mem_cons_of_mem _ hm, bytes, hb1, hb2⟩

/-- Bracket invariant: starting inside `[lo0, hi0]` with `low ≤ high`,
the loop keeps `lo0 ≤ low ≤ high ≤ hi0` and every midpoint it passes to
the tool lies in `[lo0, hi0]`. -/
theorem searchLoop_bounds (gs : ℤ → Option (List ℕ)) (tB : ℤ)
    (fuel : ℕ) (s : SearchState) (lo0 hi0 : ℚ)
    (h1 : lo0 ≤ s.low) (h2 : s.low ≤ s.high) (h3 : s.high ≤ hi0) :
    (lo0 ≤ (searchLoop gs tB fuel s).1.low ∧
      (searchLoop gs tB fuel s).1.low ≤ (searchLoop gs tB fuel s).1.high ∧
      (searchLoop gs tB fuel s).1.high ≤ hi0) ∧
    ∀ m ∈ (searchLoop gs tB fuel s).2, lo0 ≤ m ∧ m ≤ hi0 := by
  induction fuel generalizing s with
  | zero =>
    simp only [searchLoop]
    exact ⟨⟨h1, h2, h3⟩, by simp⟩
  | succ n ih =>
    have hmidlow : s.low ≤ (s.low + s.high) / 2 := by linarith
    have hmidhigh : (s.low + s.high) / 2 ≤ s.high := by linarith
    simp only [searchLoop]
    rcases hs : searchStep gs tB s with ⟨o, mid⟩
    have hmid : mid = (s.low + s.high) / 2 := by
      have hm := searchStep_mid gs tB s
      rw [hs] at hm
      exact hm
    have hbounds := searchStep_state_bounds gs tB s
    rw [hs] at hbounds
    have hgood : lo0 ≤ o.state.low ∧ o.state.low ≤ o.state.high ∧
        o.state.high ≤ hi0 := by
      rcases hbounds with ⟨e1, e2⟩ | ⟨e1, e2⟩ | ⟨e1, e2⟩ <;>
        rw [e1, e2] <;>
        exact ⟨by linarith, by linarith, by linarith⟩
    have hmid0 : lo0 ≤ mid ∧ mid ≤ hi0 := by
      rw [hmid]
      exact ⟨by linarith, by linarith⟩
    cases o with
    | halt s1 =>
      refine ⟨hgood, ?_⟩
      intro m hm
      simp only [List.mem_singleton] at hm
      subst hm
      exact hmid0
    | next s1 =>
      obtain ⟨hstate, htrace⟩ := ih s1 hgood.1 hgood.2.1 hgood.2.2
      refine ⟨hstate, ?_⟩
      intro m hm
      simp only [List.mem_cons] at hm
      rcases hm with hm | hm
      · subst hm; exact hmid0
      · exact htrace m hm

/-! ## Helper lemmas about the endpoint -/

/-- The request passes every validation check that precedes target
parsing: a file part exists, the filename is non-empty with an allowed
extension, and the upload is within the size ceiling (stated on the raw
byte count, which is equivalent to the code's megabyte comparison). -/
def ValidReq (req : Request) : Prop :=
  req.hasFilePart = true ∧ req.filename ≠ "" ∧
    allowed_file req.filename = true ∧
    req.origBytes ≤ 200 * 1024 * 1024

instance (req : Request) : Decidable (ValidReq req) := by
  unfold ValidReq
  infer_instance

/-- The byte-count bound implies the code's `mb ≤ MAX_UPLOAD_MB`
comparison. -/
theorem mb_le_of_bytes_le (n : ℕ) (h : n ≤ 200 * 1024 * 1024) :
    (n : ℚ) / (1024 * 1024) ≤ MAX_UPLOAD_MB := by
  rw [div_le_iff₀ (by norm_num : (0 : ℚ) < 1024 * 1024)]
  calc (n : ℚ) ≤ ((200 * 1024 * 1024 : ℕ) : ℚ) := by exact_mod_cast h
    _ = MAX_UPLOAD_MB * (1024 * 1024) := by norm_num [MAX_UPLOAD_MB]

/-- With no (parsed) target, a valid request takes the single-pass
path. -/
theorem run_eq_singlePass_none (gs : ℤ → Option (List ℕ)) (req : Request)
    (hv : ValidReq req) (ht : parseTarget req.targetSizeMB = some none) :
    run true gs req = singlePass gs req.origBytes (resolveQuality req.quality)
      (quality_map (resolveQuality req.quality)) none := by
  obtain ⟨h1, h2, h3, h4⟩ := hv
  simp only [run]
  rw [if_neg (by simp), if_neg (by simp [h1]), if_neg h2,
    if_neg (by simp [h3]),
    if_neg (not_lt.mpr (mb_le_of_bytes_le req.origBytes h4)), ht]

/-- With a parsed target at least as large as the upload's size in MB, a
valid request takes the single-pass path, carrying the target along. -/
theorem run_eq_singlePass_some (gs : ℤ → Option (List ℕ)) (req : Request)
    (t : ℚ) (hv : ValidReq req)
    (ht : parseTarget req.targetSizeMB = some (some t))
    (hge : (req.origBytes : ℚ) / (1024 * 1024) ≤ t) :
    run true gs req = singlePass gs req.origBytes (resolveQuality req.quality)
      (quality_map (resolveQuality req.quality)) (some t) := by
  obtain ⟨h1, h2, h3, h4⟩ := hv
  simp only [run]
  rw [if_neg (by simp), if_neg (by simp [h1]), if_neg h2,
    if_neg (by simp [h3]),
    if_neg (not_lt.mpr (mb_le_of_bytes_le req.origBytes h4)), ht]
  simp only [if_pos hge]

/-- With a parsed target strictly below the upload's size in MB, a valid
request takes the search path. -/
theorem run_eq_searchRun (gs : ℤ → Option (List ℕ)) (req : Request)
    (t : ℚ) (hv : ValidReq req)
    (ht : parseTarget req.targetSizeMB = some (some t))
    (hlt : t < (req.origBytes : ℚ) / (1024 * 1024)) :
    run true gs req = searchRun gs req.origBytes (resolveQuality req.quality)
      (quality_map (resolveQuality req.quality)) t := by
  obtain ⟨h1, h2, h3, h4⟩ := hv
  simp only [run]
  rw [if_neg (by simp), if_neg (by simp [h1]), if_neg h2,
    if_neg (by simp [h3]),
    if_neg (not_lt.mpr (mb_le_of_bytes_le req.origBytes h4)), ht]
  simp only [if_neg (not_le.mpr hlt)]

/-- A malformed target short-circuits every valid request to the 400
validation error, with no invocation and no temporary directory. -/
theorem run_eq_invalidTarget (gs : ℤ → Option (List ℕ)) (req : Request)
    (hv : ValidReq req) (ht : parseTarget req.targetSizeMB = none) :
    run true gs req =
      ⟨.err 400 "Invalid targetSizeMB", [], none, false⟩ := by
  obtain ⟨h1, h2, h3, h4⟩ := hv
  simp only [run]
  rw [if_neg (by simp), if_neg (by simp [h1]), if_neg h2,
    if_neg (by simp [h3]),
    if_neg (not_lt.mpr (mb_le_of_bytes_le req.origBytes h4)), ht]

/-- The single-pass path performs exactly one invocation, at the tier's
starting DPI with its preset. -/
theorem singlePass_trace (gs : ℤ → Option (List ℕ)) (o : ℕ) (q : String)
    (p : QualityPreset) (tgt : Option ℚ) :
    (singlePass gs o q p tgt).trace = [(p.dpi, p.pdfsettings)] := by
  unfold singlePass
  rcases gs (pyInt p.dpi) with _ | bytes <;> rfl

/-- A successful single pass returns the tool's output at the starting
DPI, with the single-pass headers, and uses that DPI. -/
theorem singlePass_file (gs : ℤ → Option (List ℕ)) (o : ℕ) (q : String)
    (p : QualityPreset) (tgt : Option ℚ) (bytes : List ℕ)
    (hgs : gs (pyInt p.dpi) = some bytes) :
    singlePass gs o q p tgt =
      ⟨.file bytes (singlePassHeaders o bytes q tgt),
       [(p.dpi, p.pdfsettings)], some p.dpi, true⟩ := by
  unfold singlePass
  rw [hgs]

/-- A failed single pass surfaces a 500 after its one invocation. -/
theorem singlePass_fail (gs : ℤ → Option (List ℕ)) (o : ℕ) (q : String)
    (p : QualityPreset) (tgt : Option ℚ)
    (hgs : gs (pyInt p.dpi) = none) :
    singlePass gs o q p tgt =
      ⟨.err 500 "Ghostscript failed", [(p.dpi, p.pdfsettings)], none,
       true⟩ := by
  unfold singlePass
  rw [hgs]

/-- When the loop ends with a best candidate, the search path returns
it: its bytes, its recorded DPI, no fallback invocation. -/
theorem searchRun_best_some (gs : ℤ → Option (List ℕ)) (o : ℕ)
    (q : String) (p : QualityPreset) (t : ℚ) (b : BestRec)
    (hb : (searchLoop gs (targetBytesOf t) MAX_ITERATIONS
      (initState p)).1.best = some b) :
    searchRun gs o q p t =
      ⟨.file b.bytes (searchHeaders o b.bytes q t),
       (searchLoop gs (targetBytesOf t) MAX_ITERATIONS
         (initState p)).2.map (fun m => (m, p.pdfsettings)),
       some (b.dpi : ℚ), true⟩ := by
  simp only [searchRun]
  rw [hb]

/-- When the loop produced nothing and the fallback also fails, the
search path surfaces a 500, after one extra invocation at `MIN_DPI`. -/
theorem searchRun_fallback_fail (gs : ℤ → Option (List ℕ)) (o : ℕ)
    (q : String) (p : QualityPreset) (t : ℚ)
    (hb : (searchLoop gs (targetBytesOf t) MAX_ITERATIONS
      (initState p)).1.best = none)
    (hgs : gs (pyInt MIN_DPI) = none) :
    searchRun gs o q p t =
      ⟨.err 500 "Compression failed",
       (searchLoop gs (targetBytesOf t) MAX_ITERATIONS
         (initState p)).2.map (fun m => (m, p.pdfsettings)) ++
         [(MIN_DPI, p.pdfsettings)],
       none, true⟩ := by
  simp only [searchRun]
  rw [hb, hgs]

/-- When the loop produced nothing but the fallback succeeds, its output
becomes the result, at resolution `MIN_DPI`. -/
theorem searchRun_fallback_ok (gs : ℤ → Option (List ℕ)) (o : ℕ)
    (q : String) (p : QualityPreset) (t : ℚ) (bytes : List ℕ)
    (hb : (searchLoop gs (targetBytesOf t) MAX_ITERATIONS
      (initState p)).1.best = none)
    (hgs : gs (pyInt MIN_DPI) = some bytes) :
    searchRun gs o q p t =
      ⟨.file bytes (searchHeaders o bytes q t),
       (searchLoop gs (targetBytesOf t) MAX_ITERATIONS
         (initState p)).2.map (fun m => (m, p.pdfsettings)) ++
         [(MIN_DPI, p.pdfsettings)],
       some MIN_DPI, true⟩ := by
  simp only [searchRun]
  rw [hb, hgs]

/-! ## Test gadgets used by concrete witnesses -/

/-- A deterministic oracle that always succeeds with a one-byte
output. -/
def gsTiny : ℤ → Option (List ℕ) := fun _ => some [0]

/-- An oracle that succeeds only at resolution 72 (with a one-byte
output), failing everywhere else. -/
def gsOnly72 : ℤ → Option (List ℕ) :=
  fun d => if d = 72 then some [0] else none

/-- An oracle that always fails. -/
def gsNever : ℤ → Option (List ℕ) := fun _ => none

/-- A plain valid request: 5000-byte upload named `a.pdf`, no quality
field, no target field. -/
def reqPlain : Request :=
  { hasFilePart := true, filename := "a.pdf", origBytes := 5000,
    quality := none, targetSizeMB := .absent }

/-- `pyInt` of an integral rational is its numerator. -/
theorem pyInt_num (q : ℚ) (h : q.den = 1) : pyInt q = q.num := by
  unfold pyInt
  rw [h]
  exact Int.tdiv_one _

/-! ## The claims -/

/-- **C8.** If the external tool is absent at process startup, every
compression request fails immediately with the same fixed error — no
tool invocation, no temporary directory, and an outcome independent of
the request and of the oracle, so the tool's presence is never re-probed
per request. -/
theorem gs_absent_fails_fast (gs : ℤ → Option (List ℕ)) (req : Request) :
    run false gs req =
      ⟨.err 500 "Ghostscript not available on server", [], none, false⟩ := by
  rfl

/-- **C2.** For every valid request whose target is absent (or parsed as
`None`) or at least the original size, exactly one invocation occurs, at
the starting resolution and preset of the resolved quality tier; on
success the resolution used is that starting resolution.  The tier table
is `high→(300, prepress)`, `medium→(200, printer)`, `low→(150, ebook)`. -/
theorem single_pass_when_no_or_large_target (gs : ℤ → Option (List ℕ))
    (req : Request) (topt : Option ℚ) (hv : ValidReq req)
    (ht : parseTarget req.targetSizeMB = some topt)
    (hcond : topt = none ∨ ∃ t, topt = some t ∧
      (req.origBytes : ℚ) / (1024 * 1024) ≤ t) :
    (run true gs req).trace =
      [((quality_map (resolveQuality req.quality)).dpi,
        (quality_map (resolveQuality req.quality)).pdfsettings)] ∧
    (∀ bytes hdrs, (run true gs req).response = .file bytes hdrs →
      (run true gs req).resolutionUsed =
        some (quality_map (resolveQuality req.quality)).dpi) ∧
    quality_map "high" = ⟨300, "/prepress"⟩ ∧
    quality_map "medium" = ⟨200, "/printer"⟩ ∧
    quality_map "low" = ⟨150, "/ebook"⟩ := by
  have hrun : run true gs req = singlePass gs req.origBytes
      (resolveQuality req.quality) (quality_map (resolveQuality req.quality))
      topt := by
    rcases hcond with h | ⟨t, ht2, hge⟩
    · subst h
      exact run_eq_singlePass_none gs req hv ht
    · subst ht2
      exact run_eq_singlePass_some gs req t hv ht hge
  refine ⟨?_, ?_, by decide, by decide, by decide⟩
  · rw [hrun]
    exact singlePass_trace gs req.origBytes _ _ topt
  · intro bytes hdrs h
    rw [hrun] at h ⊢
    rcases hgs : gs (pyInt (quality_map (resolveQuality req.quality)).dpi)
      with _ | b
    · rw [singlePass_fail _ _ _ _ _ hgs] at h
      exact absurd h (by simp)
    · rw [singlePass_file _ _ _ _ _ _ hgs]

/-- Witness for C2 at a concrete input. -/
theorem single_pass_when_no_or_large_target_witness :
    ValidReq reqPlain ∧ parseTarget reqPlain.targetSizeMB = some none ∧
    ((run true gsTiny reqPlain).trace =
      [((quality_map (resolveQuality reqPlain.quality)).dpi,
        (quality_map (resolveQuality reqPlain.quality)).pdfsettings)] ∧
    (∀ bytes hdrs, (run true gsTiny reqPlain).response = .file bytes hdrs →
      (run true gsTiny reqPlain).resolutionUsed =
        some (quality_map (resolveQuality reqPlain.quality)).dpi) ∧
    quality_map "high" = ⟨300, "/prepress"⟩ ∧
    quality_map "medium" = ⟨200, "/printer"⟩ ∧
    quality_map "low" = ⟨150, "/ebook"⟩) :=
  ⟨by decide, rfl,
    single_pass_when_no_or_large_target gsTiny reqPlain none (by decide) rfl
      (Or.inl rfl)⟩

/-- **C10.** A `targetSizeMB` field that is present but empty is treated
exactly like an absent one: the whole outcome coincides, and for a valid
request this is the single pass at the tier's starting resolution. -/
theorem empty_target_treated_as_absent (a : Bool)
    (gs : ℤ → Option (List ℕ)) (req : Request) :
    run a gs { req with targetSizeMB := .emptyStr } =
      run a gs { req with targetSizeMB := .absent } ∧
    (a = true → ValidReq req →
      (run a gs { req with targetSizeMB := .emptyStr }).trace =
        [((quality_map (resolveQuality req.quality)).dpi,
          (quality_map (resolveQuality req.quality)).pdfsettings)]) := by
  constructor
  · rfl
  · intro ha hv
    subst ha
    have hv2 : ValidReq { req with targetSizeMB := .emptyStr } := hv
    rw [run_eq_singlePass_none gs _ hv2 rfl]
    exact singlePass_trace gs _ _ _ none

/-- Witness for C10 at a concrete input. -/
theorem empty_target_treated_as_absent_witness :
    (run true gsTiny { reqPlain with targetSizeMB := .emptyStr } =
      run true gsTiny { reqPlain with targetSizeMB := .absent } ∧
    (true = true → ValidReq reqPlain →
      (run true gsTiny
        { reqPlain with targetSizeMB := .emptyStr }).trace =
        [((quality_map (resolveQuality reqPlain.quality)).dpi,
          (quality_map (resolveQuality reqPlain.quality)).pdfsettings)])) ∧
    ValidReq reqPlain :=
  ⟨empty_target_treated_as_absent true gsTiny reqPlain, by decide⟩

/-- Every tier's starting DPI is at least `MIN_DPI`. -/
theorem min_dpi_le_start (q : String) : MIN_DPI ≤ (quality_map q).dpi := by
  unfold quality_map
  split_ifs <;> norm_num [MIN_DPI]

/-- A valid request carrying a small positive target, used as a concrete
search-path input. -/
def reqSearch : Request := { reqPlain with targetSizeMB := .numeric (1/1024) }

/-- **C7.** For every valid request with a target strictly below the
original size, the total number of tool invocations is at most
`MAX_ITERATIONS + 1` (at most 8 search iterations plus at most one
fallback pass); the fuel-driven loop always terminates by
construction. -/
theorem search_invocations_bounded (gs : ℤ → Option (List ℕ))
    (req : Request) (t : ℚ) (hv : ValidReq req)
    (ht : parseTarget req.targetSizeMB = some (some t))
    (hlt : t < (req.origBytes : ℚ) / (1024 * 1024)) :
    (run true gs req).trace.length ≤ MAX_ITERATIONS + 1 := by
  rw [run_eq_searchRun gs req t hv ht hlt]
  have hlen := searchLoop_trace_length gs (targetBytesOf t) MAX_ITERATIONS
    (initState (quality_map (resolveQuality req.quality)))
  rcases hb : (searchLoop gs (targetBytesOf t) MAX_ITERATIONS
      (initState (quality_map (resolveQuality req.quality)))).1.best
    with _ | b
  · rcases hgs : gs (pyInt MIN_DPI) with _ | bytes
    · rw [searchRun_fallback_fail gs req.origBytes (resolveQuality req.quality)
        (quality_map (resolveQuality req.quality)) t hb hgs]
      simp only [List.length_append, List.length_map, List.length_singleton]
      omega
    · rw [searchRun_fallback_ok gs req.origBytes (resolveQuality req.quality)
        (quality_map (resolveQuality req.quality)) t bytes hb hgs]
      simp only [List.length_append, List.length_map, List.length_singleton]
      omega
  · rw [searchRun_best_some gs req.origBytes (resolveQuality req.quality)
      (quality_map (resolveQuality req.quality)) t b hb]
    simp only [List.length_map]
    omega

/-- Witness for C7 at a concrete input. -/
theorem search_invocations_bounded_witness :
    ValidReq reqSearch ∧
    parseTarget reqSearch.targetSizeMB = some (some (1/1024)) ∧
    ((1 : ℚ)/1024 < (reqSearch.origBytes : ℚ) / (1024 * 1024)) ∧
    (run true gsTiny reqSearch).trace.length ≤ MAX_ITERATIONS + 1 :=
  ⟨by decide, rfl, by norm_num [reqSearch, reqPlain],
    search_invocations_bounded gsTiny reqSearch (1/1024) (by decide) rfl
      (by norm_num [reqSearch, reqPlain])⟩

/-- **C9.** During every search the bracket satisfies
`low ≤ high` (and stays inside the enclosing interval), and every
resolution passed to the tool during a valid request's search lies in
`[MIN_DPI, starting resolution of the tier]`. -/
theorem search_bracket_invariant (gs : ℤ → Option (List ℕ))
    (req : Request) (t : ℚ) (hv : ValidReq req)
    (ht : parseTarget req.targetSizeMB = some (some t))
    (hlt : t < (req.origBytes : ℚ) / (1024 * 1024)) :
    (∀ fuel (s : SearchState) (lo0 hi0 : ℚ), lo0 ≤ s.low → s.low ≤ s.high →
      s.high ≤ hi0 →
      (lo0 ≤ (searchLoop gs (targetBytesOf t) fuel s).1.low ∧
        (searchLoop gs (targetBytesOf t) fuel s).1.low ≤
          (searchLoop gs (targetBytesOf t) fuel s).1.high ∧
        (searchLoop gs (targetBytesOf t) fuel s).1.high ≤ hi0) ∧
      (∀ m ∈ (searchLoop gs (targetBytesOf t) fuel s).2,
        lo0 ≤ m ∧ m ≤ hi0)) ∧
    (∀ e ∈ (run true gs req).trace,
      MIN_DPI ≤ e.1 ∧
        e.1 ≤ (quality_map (resolveQuality req.quality)).dpi) := by
  constructor
  · intro fuel s lo0 hi0 h1 h2 h3
    exact searchLoop_bounds gs (targetBytesOf t) fuel s lo0 hi0 h1 h2 h3
  · rw [run_eq_searchRun gs req t hv ht hlt]
    have hdpi : MIN_DPI ≤ (quality_map (resolveQuality req.quality)).dpi :=
      min_dpi_le_start _
    have hbounds := searchLoop_bounds gs (targetBytesOf t) MAX_ITERATIONS
      (initState (quality_map (resolveQuality req.quality))) MIN_DPI
      (quality_map (resolveQuality req.quality)).dpi (le_refl _) hdpi
      (le_refl _)
    have hmap : ∀ e ∈ (searchLoop gs (targetBytesOf t) MAX_ITERATIONS
        (initState (quality_map (resolveQuality req.quality)))).2.map
          (fun m =>
            (m, (quality_map (resolveQuality req.quality)).pdfsettings)),
        MIN_DPI ≤ e.1 ∧
          e.1 ≤ (quality_map (resolveQuality req.quality)).dpi := by
      intro e he
      simp only [List.mem_map] at he
      obtain ⟨m, hm, rfl⟩ := he
      exact hbounds.2 m hm
    rcases hb : (searchLoop gs (targetBytesOf t) MAX_ITERATIONS
        (initState (quality_map (resolveQuality req.quality)))).1.best
      with _ | b
    · rcases hgs : gs (pyInt MIN_DPI) with _ | bytes
      · rw [searchRun_fallback_fail gs req.origBytes
          (resolveQuality req.quality)
          (quality_map (resolveQuality req.quality)) t hb hgs]
        intro e he
        simp only [List.mem_append, List.mem_singleton] at he
        rcases he with he | he
        · exact hmap e he
        · subst he
          exact ⟨le_refl _, hdpi⟩
      · rw [searchRun_fallback_ok gs req.origBytes
          (resolveQuality req.quality)
          (quality_map (resolveQuality req.quality)) t bytes hb hgs]
        intro e he
        simp only [List.mem_append, List.mem_singleton] at he
        rcases he with he | he
        · exact hmap e he
        · subst he
          exact ⟨le_refl _, hdpi⟩
    · rw [searchRun_best_some gs req.origBytes (resolveQuality req.quality)
        (quality_map (resolveQuality req.quality)) t b hb]
      exact hmap

/-- Witness for C9 at a concrete input. -/
theorem search_bracket_invariant_witness :
    ValidReq reqSearch ∧
    parseTarget reqSearch.targetSizeMB = some (some (1/1024)) ∧
    ((1 : ℚ)/1024 < (reqSearch.origBytes : ℚ) / (1024 * 1024)) ∧
    ((∀ fuel (s : SearchState) (lo0 hi0 : ℚ), lo0 ≤ s.low →
      s.low ≤ s.high → s.high ≤ hi0 →
      (lo0 ≤ (searchLoop gsTiny (targetBytesOf (1/1024)) fuel s).1.low ∧
        (searchLoop gsTiny (targetBytesOf (1/1024)) fuel s).1.low ≤
          (searchLoop gsTiny (targetBytesOf (1/1024)) fuel s).1.high ∧
        (searchLoop gsTiny (targetBytesOf (1/1024)) fuel s).1.high ≤ hi0) ∧
      (∀ m ∈ (searchLoop gsTiny (targetBytesOf (1/1024)) fuel s).2,
        lo0 ≤ m ∧ m ≤ hi0)) ∧
    (∀ e ∈ (run true gsTiny reqSearch).trace,
      MIN_DPI ≤ e.1 ∧
        e.1 ≤ (quality_map (resolveQuality reqSearch.quality)).dpi)) :=
  ⟨by decide, rfl, by norm_num [reqSearch, reqPlain],
    search_bracket_invariant gsTiny reqSearch (1/1024) (by decide) rfl
      (by norm_num [reqSearch, reqPlain])⟩

/-- **C3.** If every invocation inside the search loop fails (so no
candidate was ever produced), exactly one fallback invocation at
`MIN_DPI` is appended; if it also fails the request yields the
compression error, otherwise the fallback output becomes the result with
resolution `MIN_DPI`. -/
theorem search_all_failed_fallback (gs : ℤ → Option (List ℕ))
    (req : Request) (t : ℚ) (hv : ValidReq req)
    (ht : parseTarget req.targetSizeMB = some (some t))
    (hlt : t < (req.origBytes : ℚ) / (1024 * 1024))
    (hfail : ∀ m ∈ (searchLoop gs (targetBytesOf t) MAX_ITERATIONS
      (initState (quality_map (resolveQuality req.quality)))).2,
      gs (pyInt m) = none) :
    (run true gs req).trace =
      (searchLoop gs (targetBytesOf t) MAX_ITERATIONS
        (initState (quality_map (resolveQuality req.quality)))).2.map
        (fun m =>
          (m, (quality_map (resolveQuality req.quality)).pdfsettings)) ++
      [(MIN_DPI, (quality_map (resolveQuality req.quality)).pdfsettings)] ∧
    (gs (pyInt MIN_DPI) = none →
      (run true gs req).response = .err 500 "Compression failed") ∧
    (∀ bytes, gs (pyInt MIN_DPI) = some bytes →
      (run true gs req).response =
        .file bytes (searchHeaders req.origBytes bytes
          (resolveQuality req.quality) t) ∧
      (run true gs req).resolutionUsed = some MIN_DPI) := by
  have hstate := searchLoop_state_of_allFail gs (targetBytesOf t)
    MAX_ITERATIONS (initState (quality_map (resolveQuality req.quality)))
    hfail
  have hbest : (searchLoop gs (targetBytesOf t) MAX_ITERATIONS
      (initState (quality_map (resolveQuality req.quality)))).1.best =
      none := by
    rw [hstate]
    rfl
  rw [run_eq_searchRun gs req t hv ht hlt]
  rcases hgs : gs (pyInt MIN_DPI) with _ | bytes
  · rw [searchRun_fallback_fail gs req.origBytes (resolveQuality req.quality)
      (quality_map (resolveQuality req.quality)) t hbest hgs]
    refine ⟨rfl, fun _ => rfl, ?_⟩
    intro bytes hb
    exact Option.noConfusion hb
  · rw [searchRun_fallback_ok gs req.origBytes (resolveQuality req.quality)
      (quality_map (resolveQuality req.quality)) t bytes hbest hgs]
    refine ⟨rfl, ?_, ?_⟩
    · intro hn
      exact Option.noConfusion hn
    · intro bytes2 hb
      injection hb with hb2
      subst hb2
      exact ⟨rfl, rfl⟩

/-- Witness for C3 at a concrete input: the only search invocation (at
mid 186) fails, the fallback at 72 succeeds and is returned. -/
theorem search_all_failed_fallback_witness :
    (∀ m ∈ (searchLoop gsOnly72 (targetBytesOf (1/1024)) MAX_ITERATIONS
      (initState (quality_map (resolveQuality reqSearch.quality)))).2,
      gsOnly72 (pyInt m) = none) ∧
    (run true gsOnly72 reqSearch).response =
      .file [0] (searchHeaders reqSearch.origBytes [0]
        (resolveQuality reqSearch.quality) (1/1024)) ∧
    (run true gsOnly72 reqSearch).resolutionUsed = some MIN_DPI := by
  have h186 : pyInt (186 : ℚ) = 186 := by
    rw [pyInt_num _ rfl]
    rfl
  have hq : resolveQuality reqSearch.quality = "high" := by decide
  have htB : targetBytesOf (1/1024 : ℚ) = 1024 := by
    unfold targetBytesOf
    norm_num
    rw [pyInt_num _ rfl]
    rfl
  have htrace : (searchLoop gsOnly72 (targetBytesOf (1/1024))
      MAX_ITERATIONS
      (initState (quality_map (resolveQuality reqSearch.quality)))).2 =
      [186] := by
    rw [hq, htB]
    norm_num [searchLoop, searchStep, initState, quality_map,
      MAX_ITERATIONS, MIN_DPI, gsOnly72, h186]
  have hfail : ∀ m ∈ (searchLoop gsOnly72 (targetBytesOf (1/1024))
      MAX_ITERATIONS
      (initState (quality_map (resolveQuality reqSearch.quality)))).2,
      gsOnly72 (pyInt m) = none := by
    intro m hm
    rw [htrace] at hm
    simp only [List.mem_singleton] at hm
    subst hm
    rw [h186]
    decide
  have h72 : gsOnly72 (pyInt MIN_DPI) = some [0] := by
    have hp : pyInt MIN_DPI = 72 := by
      rw [pyInt_num _ rfl]
      rfl
    rw [hp]
    decide
  have hmain := search_all_failed_fallback gsOnly72 reqSearch (1/1024)
    (by decide) rfl (by norm_num [reqSearch, reqPlain]) hfail
  exact ⟨hfail, (hmain.2.2 [0] h72).1, (hmain.2.2 [0] h72).2⟩

/-- **C1.** The best-candidate record is never replaced by a strictly
worse one: the best distance is non-increasing across each iteration and
across the whole loop; after the loop the best distance is at most the
distance of every candidate the tool successfully produced; and the
bytes a search-path response returns are those of a candidate whose
distance to target is at most that of every candidate produced during
that request's search. -/
theorem search_best_candidate_optimal (gs : ℤ → Option (List ℕ)) (tB : ℤ)
    (fuel : ℕ) (s : SearchState) :
    bestDist (searchStep gs tB s).1.state ≤ bestDist s ∧
    bestDist (searchLoop gs tB fuel s).1 ≤ bestDist s ∧
    (∀ m ∈ (searchLoop gs tB fuel s).2, ∀ bytes,
      gs (pyInt m) = some bytes →
      bestDist (searchLoop gs tB fuel s).1 ≤
        ((((bytes.length : ℤ) - tB).natAbs : ℕ) : WithTop ℕ)) ∧
    (∀ (o : ℕ) (q : String) (p : QualityPreset) (t : ℚ)
      (bytes : List ℕ) (hdrs : List (String × HVal)),
      (searchRun gs o q p t).response = .file bytes hdrs →
      ∀ m ∈ (searchLoop gs (targetBytesOf t) MAX_ITERATIONS
        (initState p)).2, ∀ produced, gs (pyInt m) = some produced →
        ((bytes.length : ℤ) - targetBytesOf t).natAbs ≤
          ((produced.length : ℤ) - targetBytesOf t).natAbs) := by
  refine ⟨searchStep_bestDist_mono gs tB s,
    searchLoop_bestDist_mono gs tB fuel s,
    fun m hm bytes hgs =>
      searchLoop_bestDist_le_produced gs tB fuel s m hm bytes hgs, ?_⟩
  intro o q p t bytes hdrs hresp m hm produced hgs
  rcases hb : (searchLoop gs (targetBytesOf t) MAX_ITERATIONS
      (initState p)).1.best with _ | b
  · have hle := searchLoop_bestDist_le_produced gs (targetBytesOf t)
      MAX_ITERATIONS (initState p) m hm produced hgs
    have htop : bestDist (searchLoop gs (targetBytesOf t) MAX_ITERATIONS
        (initState p)).1 = ⊤ := by
      unfold bestDist
      rw [hb]
    rw [htop] at hle
    exact absurd (top_le_iff.mp hle) (by simp)
  · have heq := searchRun_best_some gs o q p t b hb
    rw [heq] at hresp
    have hresp2 : Response.file b.bytes (searchHeaders o b.bytes q t) =
        Response.file bytes hdrs := hresp
    injection hresp2 with hby hh
    have hle := searchLoop_bestDist_le_produced gs (targetBytesOf t)
      MAX_ITERATIONS (initState p) m hm produced hgs
    have hbd : bestDist (searchLoop gs (targetBytesOf t) MAX_ITERATIONS
        (initState p)).1 = (b.diff : WithTop ℕ) := by
      unfold bestDist
      rw [hb]
    rw [hbd] at hle
    have hdiff : b.diff ≤ ((produced.length : ℤ) - targetBytesOf t).natAbs :=
      WithTop.coe_le_coe.mp hle
    have hsrc := searchLoop_best_src gs (targetBytesOf t) MAX_ITERATIONS
      (initState p)
    rcases hsrc with hsame | ⟨m2, hm2, bytes2, hgs2, hb2⟩
    · rw [hb] at hsame
      simp [initState] at hsame
    · rw [hb] at hb2
      injection hb2 with hb3
      subst hby
      subst hb3
      exact hdiff

/-- Witness for C1 at a concrete input. -/
theorem search_best_candidate_optimal_witness :
    bestDist (searchStep gsTiny 0 ⟨72, 300, none⟩).1.state ≤
      bestDist ⟨72, 300, none⟩ ∧
    bestDist (searchLoop gsTiny 0 8 ⟨72, 300, none⟩).1 ≤
      bestDist ⟨72, 300, none⟩ ∧
    (∀ m ∈ (searchLoop gsTiny 0 8 ⟨72, 300, none⟩).2, ∀ bytes,
      gsTiny (pyInt m) = some bytes →
      bestDist (searchLoop gsTiny 0 8 ⟨72, 300, none⟩).1 ≤
        ((((bytes.length : ℤ) - 0).natAbs : ℕ) : WithTop ℕ)) ∧
    (∀ (o : ℕ) (q : String) (p : QualityPreset) (t : ℚ)
      (bytes : List ℕ) (hdrs : List (String × HVal)),
      (searchRun gsTiny o q p t).response = .file bytes hdrs →
      ∀ m ∈ (searchLoop gsTiny (targetBytesOf t) MAX_ITERATIONS
        (initState p)).2, ∀ produced,
        gsTiny (pyInt m) = some produced →
        ((bytes.length : ℤ) - targetBytesOf t).natAbs ≤
          ((produced.length : ℤ) - targetBytesOf t).natAbs) :=
  search_best_candidate_optimal gsTiny 0 8 ⟨72, 300, none⟩

/-- **C4.** Each iteration invokes the tool at `mid = (low + high) / 2`;
when a candidate with distance `d = |size − target|` is produced:
if `d ≤ 10 KiB` (`10 * 1024 = 10240` bytes) the iteration halts the
search with the bracket unchanged; otherwise `high` moves to `mid` when
the candidate size exceeds the target and `low` moves to `mid`
otherwise, and the iteration halts exactly when the updated bracket's
width is `< 1`; the loop recursion follows the iteration's halt/continue
outcome. -/
theorem search_iteration_bisection (gs : ℤ → Option (List ℕ)) (tB : ℤ)
    (s : SearchState) (bytes : List ℕ)
    (hgs : gs (pyInt ((s.low + s.high) / 2)) = some bytes) :
    (searchStep gs tB s).2 = (s.low + s.high) / 2 ∧
    (((bytes.length : ℤ) - tB).natAbs ≤ 10 * 1024 →
      (searchStep gs tB s).1.isHalt = true ∧
      (searchStep gs tB s).1.state.low = s.low ∧
      (searchStep gs tB s).1.state.high = s.high) ∧
    (¬ ((bytes.length : ℤ) - tB).natAbs ≤ 10 * 1024 →
      (tB < (bytes.length : ℤ) →
        (searchStep gs tB s).1.state.low = s.low ∧
        (searchStep gs tB s).1.state.high = (s.low + s.high) / 2 ∧
        ((searchStep gs tB s).1.isHalt = true ↔
          (s.low + s.high) / 2 - s.low < 1)) ∧
      (¬ tB < (bytes.length : ℤ) →
        (searchStep gs tB s).1.state.low = (s.low + s.high) / 2 ∧
        (searchStep gs tB s).1.state.high = s.high ∧
        ((searchStep gs tB s).1.isHalt = true ↔
          s.high - (s.low + s.high) / 2 < 1))) ∧
    (∀ (fuel : ℕ) (s2 : SearchState) (mid : ℚ),
      searchStep gs tB s = (.halt s2, mid) →
      searchLoop gs tB (fuel + 1) s = (s2, [mid])) ∧
    (∀ (fuel : ℕ) (s2 : SearchState) (mid : ℚ),
      searchStep gs tB s = (.next s2, mid) →
      searchLoop gs tB (fuel + 1) s =
        ((searchLoop gs tB fuel s2).1,
          mid :: (searchLoop gs tB fuel s2).2)) := by
  refine ⟨searchStep_mid gs tB s, ?_, ?_, ?_, ?_⟩
  · intro hd
    unfold searchStep
    simp only [hgs]
    rw [if_pos hd]
    refine ⟨rfl, ?_, ?_⟩ <;>
      · simp only [StepOut.state]
        split_ifs <;> rfl
  · intro hd
    unfold searchStep
    simp only [hgs]
    rw [if_neg hd]
    constructor
    · intro hsz
      simp only [hsz, if_true]
      split_ifs with himp hw hw <;> refine ⟨rfl, rfl, ?_⟩
      · exact ⟨fun _ => hw, fun _ => rfl⟩
      · exact ⟨fun hfalse => absurd hfalse (by simp [StepOut.isHalt]),
          fun hcontr => absurd hcontr hw⟩
      · exact ⟨fun _ => hw, fun _ => rfl⟩
      · exact ⟨fun hfalse => absurd hfalse (by simp [StepOut.isHalt]),
          fun hcontr => absurd hcontr hw⟩
    · intro hsz
      simp only [hsz, if_false]
      split_ifs with himp hw hw <;> refine ⟨rfl, rfl, ?_⟩
      · exact ⟨fun _ => hw, fun _ => rfl⟩
      · exact ⟨fun hfalse => absurd hfalse (by simp [StepOut.isHalt]),
          fun hcontr => absurd hcontr hw⟩
      · exact ⟨fun _ => hw, fun _ => rfl⟩
      · exact ⟨fun hfalse => absurd hfalse (by simp [StepOut.isHalt]),
          fun hcontr => absurd hcontr hw⟩
  · intro fuel s2 mid hstep
    simp only [searchLoop, hstep]
  · intro fuel s2 mid hstep
    simp only [searchLoop, hstep]

/-- Witness for C4 at a concrete input (the candidate is within
tolerance, so the iteration halts with the bracket unchanged). -/
theorem search_iteration_bisection_witness :
    gsTiny (pyInt (((72 : ℚ) + 300) / 2)) = some [0] ∧
    ((searchStep gsTiny 0 ⟨72, 300, none⟩).2 = ((72 : ℚ) + 300) / 2 ∧
      (searchStep gsTiny 0 ⟨72, 300, none⟩).1.isHalt = true ∧
      (searchStep gsTiny 0 ⟨72, 300, none⟩).1.state.low = 72 ∧
      (searchStep gsTiny 0 ⟨72, 300, none⟩).1.state.high = 300) := by
  have hmain := search_iteration_bisection gsTiny 0 ⟨72, 300, none⟩ [0] rfl
  have hd : ((([0] : List ℕ).length : ℤ) - 0).natAbs ≤ 10 * 1024 := by
    decide
  exact ⟨rfl, hmain.1, (hmain.2.1 hd).1, (hmain.2.1 hd).2.1,
    (hmain.2.1 hd).2.2⟩

/-- A request whose `targetSizeMB` field is a string parsing to the
negative float −1 (e.g. `"-1"`). -/
def reqNegTarget : Request :=
  { hasFilePart := true, filename := "a.pdf", origBytes := 5000,
    quality := none, targetSizeMB := .numeric (-1) }

/-- **C5, counterexample.** A supplied `targetSizeMB` of −1 is a valid
positive float in the claim's sense of "invalid" (it is zero-or-negative),
yet the response is a successful file download — not a client validation
error — and a temporary directory is created: the code runs the search
with the negative target. -/
theorem negative_target_not_validation_error :
    statusOf (run true gsOnly72 reqNegTarget).response = none ∧
    (run true gsOnly72 reqNegTarget).tempCreated = true := by
  have h186 : pyInt (186 : ℚ) = 186 := by
    rw [pyInt_num _ rfl]
    rfl
  have hq : resolveQuality reqNegTarget.quality = "high" := by decide
  have htB : targetBytesOf (-1 : ℚ) = -1048576 := by
    unfold targetBytesOf
    norm_num
    rw [pyInt_num _ rfl]
    rfl
  have hbest : (searchLoop gsOnly72 (targetBytesOf (-1)) MAX_ITERATIONS
      (initState (quality_map
        (resolveQuality reqNegTarget.quality)))).1.best = none := by
    rw [hq, htB]
    norm_num [searchLoop, searchStep, initState, quality_map,
      MAX_ITERATIONS, MIN_DPI, gsOnly72, h186]
  have h72 : gsOnly72 (pyInt MIN_DPI) = some [0] := by
    have hp : pyInt MIN_DPI = 72 := by
      rw [pyInt_num _ rfl]
      rfl
    rw [hp]
    decide
  have hrun := run_eq_searchRun gsOnly72 reqNegTarget (-1) (by decide) rfl
    (by norm_num [reqNegTarget])
  rw [hrun, searchRun_fallback_ok gsOnly72 reqNegTarget.origBytes
    (resolveQuality reqNegTarget.quality)
    (quality_map (resolveQuality reqNegTarget.quality)) (-1) [0] hbest h72]
  exact ⟨rfl, rfl⟩

/-- **C5, amended.** A `targetSizeMB` that fails float parsing yields
the 400 validation error before any invocation or temporary file; but a
value that parses — including zero or a negative number — is never
rejected with that validation error: the request proceeds to a
compression path. -/
theorem malformed_target_rejected_numeric_accepted
    (gs : ℤ → Option (List ℕ)) (req : Request) (hv : ValidReq req) :
    (req.targetSizeMB = .malformed →
      run true gs req =
        ⟨.err 400 "Invalid targetSizeMB", [], none, false⟩) ∧
    (∀ t : ℚ, req.targetSizeMB = .numeric t →
      statusOf (run true gs req).response ≠ some 400) := by
  constructor
  · intro hm
    apply run_eq_invalidTarget gs req hv
    rw [hm]
    rfl
  · intro t hm
    have ht : parseTarget req.targetSizeMB = some (some t) := by
      rw [hm]
      rfl
    rcases le_or_lt ((req.origBytes : ℚ) / (1024 * 1024)) t with hge | hlt
    · rw [run_eq_singlePass_some gs req t hv ht hge]
      rcases hgs : gs (pyInt (quality_map (resolveQuality req.quality)).dpi)
        with _ | b
      · rw [singlePass_fail _ _ _ _ _ hgs]
        simp [statusOf]
      · rw [singlePass_file _ _ _ _ _ _ hgs]
        simp [statusOf]
    · rw [run_eq_searchRun gs req t hv ht hlt]
      rcases hb : (searchLoop gs (targetBytesOf t) MAX_ITERATIONS
          (initState (quality_map (resolveQuality req.quality)))).1.best
        with _ | b
      · rcases hgs : gs (pyInt MIN_DPI) with _ | bytes
        · rw [searchRun_fallback_fail gs req.origBytes
            (resolveQuality req.quality)
            (quality_map (resolveQuality req.quality)) t hb hgs]
          simp [statusOf]
        · rw [searchRun_fallback_ok gs req.origBytes
            (resolveQuality req.quality)
            (quality_map (resolveQuality req.quality)) t bytes hb hgs]
          simp [statusOf]
      · rw [searchRun_best_some gs req.origBytes (resolveQuality req.quality)
          (quality_map (resolveQuality req.quality)) t b hb]
        simp [statusOf]

/-- A request whose `targetSizeMB` field is a non-empty string on which
`float()` raises. -/
def reqBadTarget : Request :=
  { hasFilePart := true, filename := "a.pdf", origBytes := 5000,
    quality := none, targetSizeMB := .malformed }

/-- Witness for the amended C5 at concrete inputs. -/
theorem malformed_target_rejected_numeric_accepted_witness :
    ValidReq reqBadTarget ∧
    ((reqBadTarget.targetSizeMB = TargetField.malformed →
      run true gsTiny reqBadTarget =
        ⟨.err 400 "Invalid targetSizeMB", [], none, false⟩) ∧
    (∀ t : ℚ, reqBadTarget.targetSizeMB = .numeric t →
      statusOf (run true gsTiny reqBadTarget).response ≠ some 400)) :=
  ⟨by decide,
    malformed_target_rejected_numeric_accepted gsTiny reqBadTarget
      (by decide)⟩

/-- Does a header value encode the number `n` (as an integer value, a
float value, or its decimal string)? -/
def valueEncodes (v : HVal) (n : ℕ) : Bool :=
  match v with
  | .nat m => m == n
  | .frac _ _ => false
  | .str s2 => s2 == toString n
  | .rat q => q == (n : ℚ)

/-- Does any header value encode the number `n`? -/
def headersMention (hs : List (String × HVal)) (n : ℕ) : Bool :=
  hs.any (fun e => valueEncodes e.2 n)

/-- Every outcome of the endpoint is an error response, or comes from
the single-pass or the search path with the resolved quality tier. -/
theorem run_shape (a : Bool) (gs : ℤ → Option (List ℕ)) (req : Request) :
    (∃ st msg, (run a gs req).response = .err st msg) ∨
    (∃ topt, parseTarget req.targetSizeMB = some topt ∧
      (run a gs req = singlePass gs req.origBytes
        (resolveQuality req.quality)
        (quality_map (resolveQuality req.quality)) topt ∨
      ∃ t, topt = some t ∧ run a gs req = searchRun gs req.origBytes
        (resolveQuality req.quality)
        (quality_map (resolveQuality req.quality)) t)) := by
  simp only [run]
  split_ifs with h1 h2 h3 h4 h5
  · exact Or.inl ⟨500, _, rfl⟩
  · exact Or.inl ⟨400, _, rfl⟩
  · exact Or.inl ⟨400, _, rfl⟩
  · exact Or.inl ⟨400, _, rfl⟩
  · exact Or.inl ⟨400, _, rfl⟩
  · rcases hp : parseTarget req.targetSizeMB with _ | topt
    · exact Or.inl ⟨400, _, rfl⟩
    · rcases topt with _ | t
      · exact Or.inr ⟨none, rfl, Or.inl rfl⟩
      · by_cases hle : (req.origBytes : ℚ) / (1024 * 1024) ≤ t
        · refine Or.inr ⟨some t, rfl, Or.inl ?_⟩
          show (if (req.origBytes : ℚ) / (1024 * 1024) ≤ t then
              singlePass gs req.origBytes (resolveQuality req.quality)
                (quality_map (resolveQuality req.quality)) (some t)
            else searchRun gs req.origBytes (resolveQuality req.quality)
              (quality_map (resolveQuality req.quality)) t) =
            singlePass gs req.origBytes (resolveQuality req.quality)
              (quality_map (resolveQuality req.quality)) (some t)
          rw [if_pos hle]
        · refine Or.inr ⟨some t, rfl, Or.inr ⟨t, rfl, ?_⟩⟩
          show (if (req.origBytes : ℚ) / (1024 * 1024) ≤ t then
              singlePass gs req.origBytes (resolveQuality req.quality)
                (quality_map (resolveQuality req.quality)) (some t)
            else searchRun gs req.origBytes (resolveQuality req.quality)
              (quality_map (resolveQuality req.quality)) t) =
            searchRun gs req.origBytes (resolveQuality req.quality)
              (quality_map (resolveQuality req.quality)) t
          rw [if_neg hle]

/-- The five header keys the endpoint can emit. -/
def headerKeys : List String :=
  ["X-Original-Size", "X-Compressed-Size", "X-Compression-Ratio",
   "X-Quality-Used", "X-Target-Size"]

/-- Shape of the single-pass headers: the four base entries are present,
every key is one of the five known keys, and a non-`None` non-zero
target appears. -/
theorem singlePassHeaders_shape (o : ℕ) (bytes : List ℕ) (q : String)
    (tgt : Option ℚ) :
    ("X-Original-Size", HVal.nat o) ∈ singlePassHeaders o bytes q tgt ∧
    ("X-Compressed-Size", HVal.nat bytes.length) ∈
      singlePassHeaders o bytes q tgt ∧
    ("X-Compression-Ratio", HVal.frac bytes.length o) ∈
      singlePassHeaders o bytes q tgt ∧
    ("X-Quality-Used", HVal.str q) ∈ singlePassHeaders o bytes q tgt ∧
    (∀ e ∈ singlePassHeaders o bytes q tgt, e.1 ∈ headerKeys) ∧
    (∀ t, tgt = some t → t ≠ 0 →
      ("X-Target-Size", HVal.rat t) ∈ singlePassHeaders o bytes q tgt) := by
  unfold singlePassHeaders baseHeaders
  rcases tgt with _ | t
  · refine ⟨by simp, by simp, by simp, by simp, ?_, ?_⟩
    · intro e he
      fin_cases he <;> simp [headerKeys]
    · intro t ht
      exact absurd ht (by simp)
  · by_cases ht0 : t = 0
    · subst ht0
      refine ⟨by simp, by simp, by simp, by simp, ?_, ?_⟩
      · intro e he
        simp only [if_pos rfl] at he
        fin_cases he <;> simp [headerKeys]
      · intro t2 ht2 hne
        injection ht2 with ht3
        exact absurd ht3.symm hne
    · refine ⟨by simp, by simp, by simp, by simp, ?_, ?_⟩
      · intro e he
        simp only [if_neg ht0] at he
        fin_cases he <;> simp [headerKeys]
      · intro t2 ht2 hne
        injection ht2 with ht3
        subst ht3
        simp [if_neg hne]

/-- Shape of the search-path headers: base entries, known keys, and the
target always present. -/
theorem searchHeaders_shape (o : ℕ) (bytes : List ℕ) (q : String)
    (t : ℚ) :
    ("X-Original-Size", HVal.nat o) ∈ searchHeaders o bytes q t ∧
    ("X-Compressed-Size", HVal.nat bytes.length) ∈
      searchHeaders o bytes q t ∧
    ("X-Compression-Ratio", HVal.frac bytes.length o) ∈
      searchHeaders o bytes q t ∧
    ("X-Quality-Used", HVal.str q) ∈ searchHeaders o bytes q t ∧
    (∀ e ∈ searchHeaders o bytes q t, e.1 ∈ headerKeys) ∧
    ("X-Target-Size", HVal.rat t) ∈ searchHeaders o bytes q t := by
  unfold searchHeaders baseHeaders
  refine ⟨by simp, by simp, by simp, by simp, ?_, by simp⟩
  intro e he
  fin_cases he <;> simp [headerKeys]

/-- **C6, counterexample.** A successful request whose resolution used
is 300 produces headers none of which encode 300 in any form: the
resolution actually used is never part of the response metadata. -/
theorem headers_omit_resolution_cex :
    (run true gsTiny reqPlain).resolutionUsed = some 300 ∧
    statusOf (run true gsTiny reqPlain).response = none ∧
    headersMention (headersOf (run true gsTiny reqPlain).response) 300 =
      false := by
  have hq : resolveQuality reqPlain.quality = "high" := by decide
  have hqm : quality_map "high" = ⟨300, "/prepress"⟩ := by decide
  have hrun := run_eq_singlePass_none gsTiny reqPlain (by decide) rfl
  rw [hq, hqm] at hrun
  rw [hrun, singlePass_file gsTiny reqPlain.origBytes "high"
    ⟨300, "/prepress"⟩ none [0] rfl]
  refine ⟨rfl, rfl, ?_⟩
  decide

/-- **C6, amended.** Every successful response's metadata includes the
original size, the final size, the compression ratio and the quality
tier (and the supplied target when it is parsed and non-zero on the
single-pass path, always on the search path) — but never the resolution
actually used: every header key is one of the five fixed keys, none of
which carries the resolution. -/
theorem success_metadata_without_resolution (a : Bool)
    (gs : ℤ → Option (List ℕ)) (req : Request) (bytes : List ℕ)
    (hdrs : List (String × HVal))
    (h : (run a gs req).response = .file bytes hdrs) :
    ("X-Original-Size", HVal.nat req.origBytes) ∈ hdrs ∧
    ("X-Compressed-Size", HVal.nat bytes.length) ∈ hdrs ∧
    ("X-Compression-Ratio", HVal.frac bytes.length req.origBytes) ∈
      hdrs ∧
    ("X-Quality-Used", HVal.str (resolveQuality req.quality)) ∈ hdrs ∧
    (∀ e ∈ hdrs, e.1 ∈ headerKeys) ∧
    (∀ t : ℚ, parseTarget req.targetSizeMB = some (some t) → t ≠ 0 →
      ("X-Target-Size", HVal.rat t) ∈ hdrs) := by
  rcases run_shape a gs req with ⟨st, msg, herr⟩ | ⟨topt, hp, hbranch⟩
  · rw [h] at herr
    exact absurd herr (by simp)
  · rcases hbranch with hsp | ⟨t, htopt, hsr⟩
    · rcases hgs : gs (pyInt (quality_map (resolveQuality req.quality)).dpi)
        with _ | b
      · rw [hsp, singlePass_fail _ _ _ _ _ hgs] at h
        exact absurd h (by simp)
      · rw [hsp, singlePass_file _ _ _ _ _ _ hgs] at h
        have h2 : Response.file b (singlePassHeaders req.origBytes b
            (resolveQuality req.quality) topt) = Response.file bytes hdrs :=
          h
        injection h2 with hbb hh
        subst hbb
        subst hh
        obtain ⟨m1, m2, m3, m4, m5, m6⟩ := singlePassHeaders_shape
          req.origBytes b (resolveQuality req.quality) topt
        refine ⟨m1, m2, m3, m4, m5, ?_⟩
        intro t hpt hne
        rw [hp] at hpt
        injection hpt with hpt2
        exact m6 t hpt2 hne
    · rcases hb2 : (searchLoop gs (targetBytesOf t) MAX_ITERATIONS
          (initState (quality_map (resolveQuality req.quality)))).1.best
        with _ | b
      · rcases hgs : gs (pyInt MIN_DPI) with _ | fb
        · rw [hsr, searchRun_fallback_fail _ _ _ _ _ hb2 hgs] at h
          exact absurd h (by simp)
        · rw [hsr, searchRun_fallback_ok _ _ _ _ _ _ hb2 hgs] at h
          have h2 : Response.file fb (searchHeaders req.origBytes fb
              (resolveQuality req.quality) t) = Response.file bytes hdrs :=
            h
          injection h2 with hbb hh
          subst hbb
          subst hh
          obtain ⟨m1, m2, m3, m4, m5, m6⟩ := searchHeaders_shape
            req.origBytes fb (resolveQuality req.quality) t
          refine ⟨m1, m2, m3, m4, m5, ?_⟩
          intro t2 hpt hne
          rw [hp] at hpt
          injection hpt with hpt2
          rw [htopt] at hpt2
          injection hpt2 with hpt3
          subst hpt3
          exact m6
      · rw [hsr, searchRun_best_some _ _ _ _ _ _ hb2] at h
        have h2 : Response.file b.bytes (searchHeaders req.origBytes
            b.bytes (resolveQuality req.quality) t) =
            Response.file bytes hdrs := h
        injection h2 with hbb hh
        subst hbb
        subst hh
        obtain ⟨m1, m2, m3, m4, m5, m6⟩ := searchHeaders_shape
          req.origBytes b.bytes (resolveQuality req.quality) t
        refine ⟨m1, m2, m3, m4, m5, ?_⟩
        intro t2 hpt hne
        rw [hp] at hpt
        injection hpt with hpt2
        rw [htopt] at hpt2
        injection hpt2 with hpt3
        subst hpt3
        exact m6

/-- Witness for the amended C6 at a concrete input. -/
theorem success_metadata_without_resolution_witness :
    (run true gsTiny reqPlain).response =
      .file [0] (singlePassHeaders reqPlain.origBytes [0] "high" none) ∧
    (("X-Original-Size", HVal.nat reqPlain.origBytes) ∈
      singlePassHeaders reqPlain.origBytes [0] "high" none ∧
    ("X-Compressed-Size", HVal.nat ([0] : List ℕ).length) ∈
      singlePassHeaders reqPlain.origBytes [0] "high" none ∧
    ("X-Compression-Ratio",
      HVal.frac ([0] : List ℕ).length reqPlain.origBytes) ∈
      singlePassHeaders reqPlain.origBytes [0] "high" none ∧
    ("X-Quality-Used", HVal.str (resolveQuality reqPlain.quality)) ∈
      singlePassHeaders reqPlain.origBytes [0] "high" none ∧
    (∀ e ∈ singlePassHeaders reqPlain.origBytes [0] "high" none,
      e.1 ∈ headerKeys) ∧
    (∀ t : ℚ, parseTarget reqPlain.targetSizeMB = some (some t) →
      t ≠ 0 →
      ("X-Target-Size", HVal.rat t) ∈
        singlePassHeaders reqPlain.origBytes [0] "high" none)) := by
  have hq : resolveQuality reqPlain.quality = "high" := by decide
  have hqm : quality_map "high" = ⟨300, "/prepress"⟩ := by decide
  have hrun := run_eq_singlePass_none gsTiny reqPlain (by decide) rfl
  rw [hq, hqm] at hrun
  have h : (run true gsTiny reqPlain).response =
      .file [0] (singlePassHeaders reqPlain.origBytes [0] "high" none) := by
    rw [hrun, singlePass_file gsTiny reqPlain.origBytes "high"
      ⟨300, "/prepress"⟩ none [0] rfl]
  refine ⟨h, ?_⟩
  have hmain := success_metadata_without_resolution true gsTiny reqPlain
    [0] (singlePassHeaders reqPlain.origBytes [0] "high" none) h
  rw [hq] at hmain
  exact hmain

end PdfApp
